import Mathlib

/-!
Verification of the deadlock-proof mutex crate (`src/lib.rs`, `src/main.rs`).

Two layers of shallow embedding:

1. A value-level embedding of the library types and operations:
   `OuterMutexPermission`, `NestedMutexPermission`, `SequentialMutexPermission`,
   `DeadlockProofMutex`, the two guard types and their operations.  The
   underlying `std::sync::Mutex` is modelled as a value together with a
   poisoned flag; `lock` is modelled at the point where the blocking wait has
   completed, so it returns `Except` over the poison error exactly as the Rust
   `Result` does.  Stateful pieces (the thread-local issuance cell, the
   write-back of a mutated value when a guard is dropped) are modelled by
   explicit state passing.

2. A labelled small-step semantics of the token protocol as one thread may
   drive it through the public API: a configuration holds the guards currently
   held and the free permission tokens, classified by their (Rust) type, and a
   step is one public API call.  This is the layer on which acquisition-order
   and deadlock-freedom questions are stated.
-/

/-- Permission to claim an "outer" mutex (`struct OuterMutexPermission`).
The single Rust field is `PhantomData`, so the value carries no data. -/
structure OuterMutexPermission where
  deriving DecidableEq

/-- Permission to claim some nested mutex
(`struct NestedMutexPermission<P, I>`); all three Rust fields are
`PhantomData`. -/
structure NestedMutexPermission (P : Type) (I : Type) where
  deriving DecidableEq

/-- Permission to claim mutexes in a specific sequence
(`struct SequentialMutexPermission<P, I>`): its middle Rust field (`self.1`)
stores the permission that was consumed to acquire the mutex this token was
minted from; the other fields are `PhantomData`. -/
structure SequentialMutexPermission (P : Type) (I : Type) where
  perm : P
  deriving DecidableEq

/-- The private constructor `SequentialMutexPermission::new`. -/
def SequentialMutexPermission.new {P I : Type} (permission : P) :
    SequentialMutexPermission P I :=
  ⟨permission⟩

/-- Consumes this sequential permission to return the permission token earlier
in the sequence (`SequentialMutexPermission::to_earlier`, returns `self.1`). -/
def SequentialMutexPermission.to_earlier {P I : Type}
    (s : SequentialMutexPermission P I) : P :=
  s.perm

/-- The raw `std::sync::MutexGuard<T>`: the exclusive view of the protected
value for the duration of the critical section. -/
structure StdMutexGuard (T : Type) where
  value : T
  deriving DecidableEq

/-- The raw `std::sync::PoisonError<MutexGuard<T>>` returned by a poisoned
lock: it carries the raw guard and nothing else (in particular no permission
token). -/
structure PoisonError (T : Type) where
  guard : StdMutexGuard T
  deriving DecidableEq

/-- The state of a raw `std::sync::Mutex<T>`: the protected value and whether
a previous holder panicked while holding the lock. -/
structure StdMutex (T : Type) where
  value : T
  poisoned : Bool
  deriving DecidableEq

/-- The raw `Mutex::lock` at the point where the blocking wait has completed:
the result is `Err(PoisonError(guard))` exactly when the mutex is poisoned,
and `Ok(guard)` otherwise. -/
def StdMutex.rawLock {T : Type} (m : StdMutex T) :
    Except (PoisonError T) (StdMutexGuard T) :=
  if m.poisoned then Except.error ⟨⟨m.value⟩⟩ else Except.ok ⟨m.value⟩

/-- Dropping a raw guard: the value as mutated through the guard is the value
of the mutex again and the lock becomes free. -/
def StdMutex.storeGuard {T : Type} (m : StdMutex T) (g : StdMutexGuard T) :
    StdMutex T :=
  { m with value := g.value }

/-- The thread-local cell `MUTEX_PERMISSION_TOKEN` as it is initialized for
each fresh thread: it starts out holding the single outer permission of that
thread; `none` is the claimed ("taken") state. -/
def MUTEX_PERMISSION_TOKEN : Option OuterMutexPermission :=
  some ⟨⟩

/-- The thread-local issuer `OuterMutexPermission::get`, as a function of the
cell state of the calling thread.  `Cell::take` hands out the content and
leaves `none`; the `expect` turns an empty cell into a panic, modelled by
`none` in the first component.  Returns (call result, new cell state). -/
def OuterMutexPermission.get (cell : Option OuterMutexPermission) :
    Option OuterMutexPermission × Option OuterMutexPermission :=
  (cell, none)

/-- `DeadlockProofMutex<T, P, I>` (field 0 is the raw mutex; the two others
are `PhantomData`).  `P` is the permission type required to claim it and `I`
its identity marker type. -/
structure DeadlockProofMutex (T : Type) (P : Type) (I : Type) where
  mutex : StdMutex T
  deriving DecidableEq

/-- `DeadlockProofMutex::new`: wraps a fresh, unpoisoned raw mutex.  The
identifier argument is consumed only to fix `I`. -/
def DeadlockProofMutex.new {T P I : Type} (content : T) (_identifier : I) :
    DeadlockProofMutex T P I :=
  ⟨{ value := content, poisoned := false }⟩

/-- `DeadlockProofMutexGuard<T, P, I>`: the raw guard (`self.0`) together with
the permission that was consumed by the acquisition (`self.1`). -/
structure DeadlockProofMutexGuard (T : Type) (P : Type) (I : Type) where
  guard : StdMutexGuard T
  perm : P
  deriving DecidableEq

/-- `DeadlockProofNestedMutexGuard<T, P, I>`: same fields as the plain guard;
it is the guard returned by `lock_for_nested`. -/
structure DeadlockProofNestedMutexGuard (T : Type) (P : Type) (I : Type) where
  guard : StdMutexGuard T
  perm : P
  deriving DecidableEq

/-- `DeadlockProofMutex::lock`: `self.0.lock().map(|guard| Guard(guard,
permission, PhantomData))`.  On the poisoned path the `map` closure does not
run, so the error is the raw poison error and the permission is dropped. -/
def DeadlockProofMutex.lock {T P I : Type} (m : DeadlockProofMutex T P I)
    (permission : P) :
    Except (PoisonError T) (DeadlockProofMutexGuard T P I) :=
  (m.mutex.rawLock).map fun guard => ⟨guard, permission⟩

/-- `DeadlockProofMutex::lock_for_nested`: like `lock` but the success value
additionally mints a fresh `NestedMutexPermission<P, I>` token. -/
def DeadlockProofMutex.lock_for_nested {T P I : Type}
    (m : DeadlockProofMutex T P I) (permission : P) :
    Except (PoisonError T)
      (DeadlockProofNestedMutexGuard T P I × NestedMutexPermission P I) :=
  (m.mutex.rawLock).map fun guard => (⟨guard, permission⟩, ⟨⟩)

/-- `DeadlockProofMutexGuard::unlock`: consumes the guard (releasing the lock)
and returns the stored permission `self.1`. -/
def DeadlockProofMutexGuard.unlock {T P I : Type}
    (g : DeadlockProofMutexGuard T P I) : P :=
  g.perm

/-- `DeadlockProofMutexGuard::unlock_for_sequential`: consumes the guard and
returns `SequentialMutexPermission::new(self.1)`. -/
def DeadlockProofMutexGuard.unlock_for_sequential {T P I : Type}
    (g : DeadlockProofMutexGuard T P I) : SequentialMutexPermission P I :=
  SequentialMutexPermission.new g.perm

/-- `DeadlockProofNestedMutexGuard::unlock`: requires presenting back the
nested token minted at acquisition (which it merely consumes) and returns the
stored permission `self.1`. -/
def DeadlockProofNestedMutexGuard.unlock {T P I : Type}
    (g : DeadlockProofNestedMutexGuard T P I)
    (_token : NestedMutexPermission P I) : P :=
  g.perm

/-- `DeadlockProofNestedMutexGuard::unlock_for_sequential`: consumes the guard
(releasing the outer lock) and returns `SequentialMutexPermission::new(self.1)`
without requiring the nested token. -/
def DeadlockProofNestedMutexGuard.unlock_for_sequential {T P I : Type}
    (g : DeadlockProofNestedMutexGuard T P I) : SequentialMutexPermission P I :=
  SequentialMutexPermission.new g.perm

/-- `Deref` for the plain guard: read the protected value. -/
def DeadlockProofMutexGuard.deref {T P I : Type}
    (g : DeadlockProofMutexGuard T P I) : T :=
  g.guard.value

/-- `DerefMut` followed by assignment, `*guard = v`. -/
def DeadlockProofMutexGuard.set {T P I : Type}
    (g : DeadlockProofMutexGuard T P I) (v : T) :
    DeadlockProofMutexGuard T P I :=
  { g with guard := ⟨v⟩ }

/-- `Deref` for the nested guard: read the protected value. -/
def DeadlockProofNestedMutexGuard.deref {T P I : Type}
    (g : DeadlockProofNestedMutexGuard T P I) : T :=
  g.guard.value

/-- The write-back when the raw guard inside a deadlock-proof guard is
released (by `unlock`, `unlock_for_sequential` or by dropping): the mutex
holds the value as mutated through the guard. -/
def DeadlockProofMutex.afterRelease {T P I : Type}
    (m : DeadlockProofMutex T P I) (g : StdMutexGuard T) :
    DeadlockProofMutex T P I :=
  ⟨m.mutex.storeGuard g⟩

/-!
The token-protocol semantics.  A capability token is classified by its Rust
type; `TokenTy` is that type grammar.  A hierarchy assigns every mutex its
required token type and its identity marker.  A thread configuration records
which guards the thread currently holds (most recent first) and which free
tokens it owns; a step is one call of the public API of `src/lib.rs`.
-/

/-- Identity markers, one value per `unique_type!` marker type. -/
abbrev Ident := Nat

/-- Names for the mutexes of a declared hierarchy. -/
abbrev MutexId := Nat

/-- The Rust type of a capability token. -/
inductive TokenTy : Type where
  | outer : TokenTy
  | nested (p : TokenTy) (i : Ident) : TokenTy
  | seq (p : TokenTy) (i : Ident) : TokenTy
  deriving DecidableEq

/-- The declaration of one mutex: the token type its `lock` requires and its
identity marker. -/
structure MutexDecl where
  req : TokenTy
  ident : Ident
  deriving DecidableEq

/-- A declared hierarchy of mutexes. -/
abbrev Hierarchy := MutexId → MutexDecl

/-- One held guard: which mutex it locks, whether it is the nested guard
variant (returned by `lock_for_nested`), and the Rust type of the permission
stored inside it. -/
structure Frame where
  mutex : MutexId
  isNested : Bool
  permTy : TokenTy
  deriving DecidableEq

/-- The protocol-relevant state of one thread: the guards currently held
(most recently acquired first) and the free tokens owned, by token type. -/
structure ThreadConfig where
  held : List Frame
  free : List TokenTy
  deriving DecidableEq

/-- A fresh thread directly after `OuterMutexPermission::get`: no guard held,
one outer token free. -/
def initConfig : ThreadConfig :=
  ⟨[], [TokenTy.outer]⟩

/-- The API call a step performs. -/
inductive ApiCall : Type where
  | lock (m : MutexId)
  | lockNested (m : MutexId)
  | unlockPlain (m : MutexId)
  | unlockNested (m : MutexId)
  | seqPlain (m : MutexId)
  | seqNested (m : MutexId)
  | toEarlier (p : TokenTy) (i : Ident)
  | dropGuard (m : MutexId)
  | dropToken (t : TokenTy)
  deriving DecidableEq

/-- One public API call of a thread running against hierarchy `H`.  Tokens are
affine: a call that takes a permission by value removes it from `free`;
guards are plain values, so any held guard may be consumed at any time. -/
inductive Step (H : Hierarchy) : ThreadConfig → ApiCall → ThreadConfig → Prop where
  | lock {c c' : ThreadConfig} {m : MutexId}
      (hmem : (H m).req ∈ c.free)
      (hheld : c'.held = { mutex := m, isNested := false, permTy := (H m).req } :: c.held)
      (hfree : c'.free = c.free.erase (H m).req) :
      Step H c (ApiCall.lock m) c'
  | lockNested {c c' : ThreadConfig} {m : MutexId}
      (hmem : (H m).req ∈ c.free)
      (hheld : c'.held = { mutex := m, isNested := true, permTy := (H m).req } :: c.held)
      (hfree : c'.free = TokenTy.nested (H m).req (H m).ident :: c.free.erase (H m).req) :
      Step H c (ApiCall.lockNested m) c'
  | unlockPlain {c c' : ThreadConfig} (f : Frame)
      (hf : f ∈ c.held) (hplain : f.isNested = false)
      (hheld : c'.held = c.held.erase f)
      (hfree : c'.free = f.permTy :: c.free) :
      Step H c (ApiCall.unlockPlain f.mutex) c'
  | unlockNested {c c' : ThreadConfig} (f : Frame)
      (hf : f ∈ c.held) (hn : f.isNested = true)
      (htok : TokenTy.nested f.permTy (H f.mutex).ident ∈ c.free)
      (hheld : c'.held = c.held.erase f)
      (hfree : c'.free =
        f.permTy :: c.free.erase (TokenTy.nested f.permTy (H f.mutex).ident)) :
      Step H c (ApiCall.unlockNested f.mutex) c'
  | seqPlain {c c' : ThreadConfig} (f : Frame)
      (hf : f ∈ c.held) (hplain : f.isNested = false)
      (hheld : c'.held = c.held.erase f)
      (hfree : c'.free = TokenTy.seq f.permTy (H f.mutex).ident :: c.free) :
      Step H c (ApiCall.seqPlain f.mutex) c'
  | seqNested {c c' : ThreadConfig} (f : Frame)
      (hf : f ∈ c.held) (hn : f.isNested = true)
      (hheld : c'.held = c.held.erase f)
      (hfree : c'.free = TokenTy.seq f.permTy (H f.mutex).ident :: c.free) :
      Step H c (ApiCall.seqNested f.mutex) c'
  | toEarlier {c c' : ThreadConfig} {p : TokenTy} {i : Ident}
      (htok : TokenTy.seq p i ∈ c.free)
      (hheld : c'.held = c.held)
      (hfree : c'.free = p :: c.free.erase (TokenTy.seq p i)) :
      Step H c (ApiCall.toEarlier p i) c'
  | dropGuard {c c' : ThreadConfig} (f : Frame)
      (hf : f ∈ c.held)
      (hheld : c'.held = c.held.erase f)
      (hfree : c'.free = c.free) :
      Step H c (ApiCall.dropGuard f.mutex) c'
  | dropToken {c c' : ThreadConfig} {t : TokenTy}
      (htok : t ∈ c.free)
      (hheld : c'.held = c.held)
      (hfree : c'.free = c.free.erase t) :
      Step H c (ApiCall.dropToken t) c'

/-- The thread configurations one thread can reach from a fresh start. -/
inductive Reachable (H : Hierarchy) : ThreadConfig → Prop where
  | init : Reachable H initConfig
  | step {c c' : ThreadConfig} {a : ApiCall} :
      Reachable H c → Step H c a c' → Reachable H c'

/-- The mutexes currently held, most recently acquired first. -/
def heldMutexes (c : ThreadConfig) : List MutexId :=
  c.held.map Frame.mutex

/-- The thread holds both `a` and `b` and acquired `a` before `b`: since
`held` only ever grows by prepending and shrinks by erasing, every frame below
another was acquired earlier and was still held when the one above it was
acquired. -/
def holdsInOrder (c : ThreadConfig) (a b : MutexId) : Prop :=
  ∃ pre mid post, heldMutexes c = pre ++ b :: mid ++ a :: post

/-- The ordering guarantee the spec claims for the protocol: for no pair of
distinct mutexes of the declared hierarchy can one reachable thread history
hold them having acquired `a` first while another reachable thread history
holds them having acquired `b` first.  Two such histories, run as two threads,
are exactly a circular wait. -/
def conflictFree (H : Hierarchy) : Prop :=
  ∀ a b c₁ c₂, a ≠ b → Reachable H c₁ → Reachable H c₂ →
    holdsInOrder c₁ a b → ¬ holdsInOrder c₂ b a

/-- A two-mutex hierarchy in the intended nested style: mutex 0 requires the
outer token; mutex 1 requires the nested token minted by mutex 0
(`DeadlockProofMutex<_, NestedMutexPermission<OuterMutexPermission, Id0>, Id1>`). -/
def conflictH : Hierarchy := fun m =>
  if m = 0 then { req := TokenTy.outer, ident := 0 }
  else { req := TokenTy.nested TokenTy.outer 0, ident := 1 }

/-- After `lock_for_nested` on mutex 0: holding 0, owning its nested token. -/
def cfgA : ThreadConfig :=
  ⟨[⟨0, true, TokenTy.outer⟩], [TokenTy.nested TokenTy.outer 0]⟩

/-- After additionally locking mutex 1 with the nested token: holding 0 then 1. -/
def cfgAB : ThreadConfig :=
  ⟨[⟨1, false, TokenTy.nested TokenTy.outer 0⟩, ⟨0, true, TokenTy.outer⟩], []⟩

/-- After releasing mutex 1 again by its plain `unlock`: the nested token is
free again. -/
def cfgABack : ThreadConfig :=
  ⟨[⟨0, true, TokenTy.outer⟩], [TokenTy.nested TokenTy.outer 0]⟩

/-- After the full LIFO unwind: nothing held, the outer token recovered. -/
def cfgDone : ThreadConfig :=
  ⟨[], [TokenTy.outer]⟩

/-- From `cfgAB`, releasing the outer mutex 0 first through the nested guard
`unlock_for_sequential`, while mutex 1 stays held. -/
def cfgEarly : ThreadConfig :=
  ⟨[⟨1, false, TokenTy.nested TokenTy.outer 0⟩], [TokenTy.seq TokenTy.outer 0]⟩

/-- Thread-two history, after `lock_for_nested` on 0 and then
`unlock_for_sequential` on its nested guard: nothing held, but both the
sequential token and the still-live nested token are free. -/
def cfgTwoA : ThreadConfig :=
  ⟨[], [TokenTy.seq TokenTy.outer 0, TokenTy.nested TokenTy.outer 0]⟩

/-- After `to_earlier` on the sequential token: the outer token is back while
the nested token of mutex 0 is still free. -/
def cfgTwoB : ThreadConfig :=
  ⟨[], [TokenTy.outer, TokenTy.nested TokenTy.outer 0]⟩

/-- After locking mutex 1 with the still-live nested token: holding 1, with
the outer token free. -/
def cfgTwoC : ThreadConfig :=
  ⟨[⟨1, false, TokenTy.nested TokenTy.outer 0⟩], [TokenTy.outer]⟩

/-- After locking mutex 0 with the recovered outer token: holding 1 then 0 —
the opposite acquisition order to `cfgAB`. -/
def cfgTwoD : ThreadConfig :=
  ⟨[⟨0, false, TokenTy.outer⟩, ⟨1, false, TokenTy.nested TokenTy.outer 0⟩], []⟩

/-!
Concrete instances used by the scenario claims: the two independent integer
mutexes of the exclusive demo, a two-step sequential chain, a two-level nested
chain, and small witness mutexes.
-/

/-- Identity marker of the first exclusive-demo mutex (a `unique_type!`). -/
structure Demo1 where
  deriving DecidableEq

/-- Identity marker of the second exclusive-demo mutex (a `unique_type!`). -/
structure Demo2 where
  deriving DecidableEq

/-- The `demo_exclusive_mutexes` scenario of `src/main.rs` with the console
output dropped.  A worker thread claims its own root permission, sets mutex1
to 42, releases it, sets mutex2 to 84 (released when the guard drops at the
end of the thread); then the main thread claims its own root permission and
reads both mutexes in turn.  Each thread evaluates the issuer on its own fresh
thread-local cell.  The result is the pair the main thread reads; `none`
stands for a path the demo would `unwrap` into a panic. -/
def demo_exclusive_mutexes : Option (Int × Int) :=
  let mutex1 : DeadlockProofMutex Int OuterMutexPermission Demo1 :=
    DeadlockProofMutex.new 0 ⟨⟩
  let mutex2 : DeadlockProofMutex Int OuterMutexPermission Demo2 :=
    DeadlockProofMutex.new 0 ⟨⟩
  match OuterMutexPermission.get MUTEX_PERMISSION_TOKEN with
  | (none, _) => none
  | (some permission, _) =>
    match mutex1.lock permission with
    | Except.error _ => none
    | Except.ok guard1 =>
      let guard1 := guard1.set 42
      let permission := guard1.unlock
      let mutex1 := mutex1.afterRelease guard1.guard
      match mutex2.lock permission with
      | Except.error _ => none
      | Except.ok guard2 =>
        let guard2 := guard2.set 84
        let mutex2 := mutex2.afterRelease guard2.guard
        match OuterMutexPermission.get MUTEX_PERMISSION_TOKEN with
        | (none, _) => none
        | (some mainPermission, _) =>
          match mutex1.lock mainPermission with
          | Except.error _ => none
          | Except.ok g1 =>
            let v1 := g1.deref
            let mainPermission := g1.unlock
            match mutex2.lock mainPermission with
            | Except.error _ => none
            | Except.ok g2 => some (v1, g2.deref)

/-- Identity marker of the first mutex of the sequential chain. -/
structure SeqA where
  deriving DecidableEq

/-- Identity marker of the second mutex of the sequential chain. -/
structure SeqB where
  deriving DecidableEq

/-- Mutex A of the sequential chain: requires the outer token. -/
def seqMutexA : DeadlockProofMutex Int OuterMutexPermission SeqA :=
  DeadlockProofMutex.new 1 ⟨⟩

/-- Mutex B of the sequential chain: declared to require exactly the
sequential token minted on releasing A. -/
def seqMutexB :
    DeadlockProofMutex Int (SequentialMutexPermission OuterMutexPermission SeqA)
      SeqB :=
  DeadlockProofMutex.new 2 ⟨⟩

/-- Sequential chaining scenario: acquire A with the root token, release it
with `unlock_for_sequential`, acquire B with the minted sequential token, and
read the value B protects. -/
def seqChainDemo : Option Int :=
  match seqMutexA.lock ⟨⟩ with
  | Except.error _ => none
  | Except.ok gA =>
    let s := gA.unlock_for_sequential
    match seqMutexB.lock s with
    | Except.error _ => none
    | Except.ok gB => some gB.deref

/-- Identity marker of the outer mutex of the nested chain. -/
structure NestA where
  deriving DecidableEq

/-- Identity marker of the inner mutex of the nested chain. -/
structure NestB where
  deriving DecidableEq

/-- Outer mutex A of the nested chain: requires the outer token. -/
def nestMutexA : DeadlockProofMutex Int OuterMutexPermission NestA :=
  DeadlockProofMutex.new 10 ⟨⟩

/-- Inner mutex B of the nested chain: declared to require exactly the nested
token minted while A is held. -/
def nestMutexB :
    DeadlockProofMutex Int (NestedMutexPermission OuterMutexPermission NestA)
      NestB :=
  DeadlockProofMutex.new 20 ⟨⟩

/-- Nested LIFO scenario: acquire A for nesting, acquire B with the minted
nested token, release B first (recovering the nested token), then release A
by presenting that token back, recovering the original outer token. -/
def nestedLifoDemo : Option OuterMutexPermission :=
  match nestMutexA.lock_for_nested ⟨⟩ with
  | Except.error _ => none
  | Except.ok (gA, nTok) =>
    match nestMutexB.lock nTok with
    | Except.error _ => none
    | Except.ok gB =>
      let nTokBack := gB.unlock
      some (gA.unlock nTokBack)

/-- Early-release scenario: acquire A for nesting, acquire B with the minted
nested token, then release A through the nested guard `unlock_for_sequential`
while B is still held; the nested token value is at that moment stored inside
the guard of B, so it is not presented. -/
def nestedEarlyReleaseDemo :
    Option (SequentialMutexPermission OuterMutexPermission NestA × Int) :=
  match nestMutexA.lock_for_nested ⟨⟩ with
  | Except.error _ => none
  | Except.ok (gA, nTok) =>
    match nestMutexB.lock nTok with
    | Except.error _ => none
    | Except.ok gB => some (gA.unlock_for_sequential, gB.deref)

/-- A small unpoisoned witness mutex. -/
def witnessMutex : DeadlockProofMutex Int OuterMutexPermission Unit :=
  DeadlockProofMutex.new 7 ()

/-- The guard `witnessMutex.lock` produces. -/
def witnessGuard : DeadlockProofMutexGuard Int OuterMutexPermission Unit :=
  ⟨⟨7⟩, ⟨⟩⟩

/-- A witness mutex whose raw lock is poisoned. -/
def poisonedMutex : DeadlockProofMutex Int OuterMutexPermission Unit :=
  ⟨{ value := 3, poisoned := true }⟩

/-!
Helper lemmas: the individual protocol steps and reachability of the concrete
configurations.
-/

/-- A fresh thread acquires mutex 0 with `lock_for_nested`. -/
theorem step_init_cfgA : Step conflictH initConfig (ApiCall.lockNested 0) cfgA :=
  Step.lockNested (by decide) (by decide) (by decide)

/-- Holding mutex 0, the thread locks mutex 1 with the minted nested token. -/
theorem step_cfgA_cfgAB : Step conflictH cfgA (ApiCall.lock 1) cfgAB :=
  Step.lock (by decide) (by decide) (by decide)

/-- Releasing the inner mutex 1 by plain `unlock` recovers the nested token. -/
theorem step_cfgAB_cfgABack :
    Step conflictH cfgAB (ApiCall.unlockPlain 1) cfgABack :=
  Step.unlockPlain ⟨1, false, TokenTy.nested TokenTy.outer 0⟩
    (by decide) (by decide) (by decide) (by decide)

/-- Releasing the outer mutex 0 by presenting the nested token back recovers
the outer token. -/
theorem step_cfgABack_cfgDone :
    Step conflictH cfgABack (ApiCall.unlockNested 0) cfgDone :=
  Step.unlockNested ⟨0, true, TokenTy.outer⟩
    (by decide) (by decide) (by decide) (by decide) (by decide)

/-- Holding only mutex 0 (nested), the thread releases it through the nested
guard `unlock_for_sequential`, keeping the minted nested token alive. -/
theorem step_cfgA_cfgTwoA : Step conflictH cfgA (ApiCall.seqNested 0) cfgTwoA :=
  Step.seqNested ⟨0, true, TokenTy.outer⟩
    (by decide) (by decide) (by decide) (by decide)

/-- The sequential token is converted back to the outer token. -/
theorem step_cfgTwoA_cfgTwoB :
    Step conflictH cfgTwoA (ApiCall.toEarlier TokenTy.outer 0) cfgTwoB :=
  Step.toEarlier (by decide) (by decide) (by decide)

/-- Mutex 1 is locked with the still-live nested token. -/
theorem step_cfgTwoB_cfgTwoC : Step conflictH cfgTwoB (ApiCall.lock 1) cfgTwoC :=
  Step.lock (by decide) (by decide) (by decide)

/-- Mutex 0 is locked with the recovered outer token, while mutex 1 is held. -/
theorem step_cfgTwoC_cfgTwoD : Step conflictH cfgTwoC (ApiCall.lock 0) cfgTwoD :=
  Step.lock (by decide) (by decide) (by decide)

/-- The history that acquires 0 then 1 and holds both is reachable. -/
theorem reachable_cfgAB : Reachable conflictH cfgAB :=
  Reachable.step (Reachable.step Reachable.init step_init_cfgA) step_cfgA_cfgAB

/-- The history that acquires 1 then 0 and holds both is reachable. -/
theorem reachable_cfgTwoD : Reachable conflictH cfgTwoD :=
  Reachable.step
    (Reachable.step
      (Reachable.step
        (Reachable.step (Reachable.step Reachable.init step_init_cfgA)
          step_cfgA_cfgTwoA)
        step_cfgTwoA_cfgTwoB)
      step_cfgTwoB_cfgTwoC)
    step_cfgTwoC_cfgTwoD

/-- The full LIFO unwind ends with nothing held and the outer token free. -/
theorem reachable_cfgDone : Reachable conflictH cfgDone :=
  Reachable.step (Reachable.step reachable_cfgAB step_cfgAB_cfgABack)
    step_cfgABack_cfgDone

/-!
The claim theorems.
-/

/-- C1.  The spec claims that no two mutexes of a declared hierarchy can be
acquired in conflicting order by any thread, so circular-wait deadlock among
protocol mutexes is impossible.  The code refutes this: in the hierarchy
`conflictH` (mutex 1 declared nested under mutex 0, exactly the intended
A-then-B style), the reachable history `cfgAB` acquires 0 then 1 and holds
both, while the reachable history `cfgTwoD` acquires 1 then 0 and holds
both — it releases mutex 0 through the nested guard `unlock_for_sequential`,
which keeps the minted nested token alive, recovers the outer token with
`to_earlier`, locks mutex 1 with the nested token and then mutex 0 with the
outer token.  Two threads running these histories form a circular wait, so
the protocol does not deliver the ordering guarantee. -/
theorem conflicting_acquisition_orders_reachable : ¬ conflictFree conflictH := by
  intro h
  exact h 0 1 cfgAB cfgTwoD (by decide) reachable_cfgAB reachable_cfgTwoD
    ⟨[], [], [], by decide⟩ ⟨[], [], [], by decide⟩

/-- C2.  On every thread, a call of `OuterMutexPermission::get` on the fresh
thread-local cell succeeds, returning the root token, and leaves the cell
claimed (`none`); every call leaves the cell claimed, and a call on a claimed
cell returns no token — the `expect` fails fatally. -/
theorem outer_permission_single_issuance :
    OuterMutexPermission.get MUTEX_PERMISSION_TOKEN = (some ⟨⟩, none) ∧
    (∀ cell, (OuterMutexPermission.get cell).2 = none) ∧
    (OuterMutexPermission.get none).1 = none :=
  ⟨rfl, fun _ => rfl, rfl⟩

/-- C3 counterexample.  An attempt to release the outer mutex A before the
inner mutex B is not rejected: at the value level the early-release scenario
succeeds, returning a sequential token while the guard of B is still usable;
and in the protocol semantics, from the reachable configuration `cfgAB`
(holding 0 nested, then 1, with no nested-token value among the free tokens)
the step releasing mutex 0 while mutex 1 stays held is accepted — the nested
guard `unlock_for_sequential` needs no nested token. -/
theorem outer_release_before_inner_accepted :
    nestedEarlyReleaseDemo =
      some (SequentialMutexPermission.new OuterMutexPermission.mk, 20) ∧
    Reachable conflictH cfgAB ∧
    Step conflictH cfgAB (ApiCall.seqNested 0) cfgEarly ∧
    TokenTy.nested TokenTy.outer 0 ∉ cfgAB.free ∧
    heldMutexes cfgAB = [1, 0] ∧
    heldMutexes cfgEarly = [1] := by
  refine ⟨rfl, reachable_cfgAB, ?_, by decide, by decide, by decide⟩
  exact Step.seqNested ⟨0, true, TokenTy.outer⟩
    (by decide) (by decide) (by decide) (by decide)

/-- C3 (amended).  The nested LIFO scenario succeeds: at the value level,
releasing B returns the minted nested token and presenting it back to the
guard of A returns the original outer token, and as a protocol trace the full
unwind ends with everything released and the outer token free.  Releasing A
through the nested guard `unlock` — the operation that returns the original
permission — is rejected before B is released: from `cfgAB` no `unlockNested`
step on mutex 0 exists, and in general such a step fires only when the minted
nested-token value is among the free tokens.  However, the nested guard also
offers `unlock_for_sequential`, which releases A without the nested token and
yields a sequential permission instead of the original one. -/
theorem nested_lifo_unwind :
    nestedLifoDemo = some OuterMutexPermission.mk ∧
    Reachable conflictH cfgDone ∧
    (∀ c', ¬ Step conflictH cfgAB (ApiCall.unlockNested 0) c') ∧
    (∀ (H : Hierarchy) (c c' : ThreadConfig) (m : MutexId),
      Step H c (ApiCall.unlockNested m) c' →
        ∃ f, f ∈ c.held ∧ f.isNested = true ∧ f.mutex = m ∧
          TokenTy.nested f.permTy (H f.mutex).ident ∈ c.free) := by
  have inv : ∀ (H : Hierarchy) (c c' : ThreadConfig) (m : MutexId),
      Step H c (ApiCall.unlockNested m) c' →
        ∃ f, f ∈ c.held ∧ f.isNested = true ∧ f.mutex = m ∧
          TokenTy.nested f.permTy (H f.mutex).ident ∈ c.free := by
    intro H c c' m h
    cases h with
    | unlockNested f hf hn htok hheld hfree => exact ⟨f, hf, hn, rfl, htok⟩
  refine ⟨rfl, reachable_cfgDone, ?_, inv⟩
  intro c' h
  obtain ⟨f, hf, hn, hm, htok⟩ := inv conflictH cfgAB c' 0 h
  exact List.not_mem_nil _ htok

/-- C4.  For a guard produced by `lock(t)`, `unlock` returns exactly the token
`t` that was consumed by the acquisition, and the identical mutex accepts the
returned token again. -/
theorem unlock_returns_consumed_token :
    ∀ {T P I : Type} (m : DeadlockProofMutex T P I) (t : P)
      (g : DeadlockProofMutexGuard T P I),
      m.lock t = Except.ok g →
        g.unlock = t ∧ m.lock g.unlock = Except.ok g := by
  intro T P I m t g h
  cases hp : m.mutex.poisoned
  · simp only [DeadlockProofMutex.lock, StdMutex.rawLock, hp] at h
    cases h
    refine ⟨rfl, ?_⟩
    simp [DeadlockProofMutex.lock, StdMutex.rawLock, hp, Except.map,
      DeadlockProofMutexGuard.unlock]
  · simp only [DeadlockProofMutex.lock, StdMutex.rawLock, hp] at h
    cases h

/-- C4 witness: the round trip on the concrete witness mutex. -/
theorem unlock_returns_consumed_token_witness :
    witnessGuard.unlock = OuterMutexPermission.mk ∧
    witnessMutex.lock witnessGuard.unlock = Except.ok witnessGuard :=
  unlock_returns_consumed_token witnessMutex OuterMutexPermission.mk
    witnessGuard rfl

/-- C5.  For every mutex, `lock` and `lock_for_nested` return an error value
exactly when the underlying lock is poisoned; on that path the poison error is
returned to the caller as a value of the `Except`, never swallowed, and no
other error condition exists in either operation. -/
theorem lock_error_iff_poisoned :
    ∀ {T P I : Type} (m : DeadlockProofMutex T P I) (p : P),
      ((∃ e, m.lock p = Except.error e) ↔ m.mutex.poisoned = true) ∧
      ((∃ e, m.lock_for_nested p = Except.error e) ↔ m.mutex.poisoned = true) := by
  intro T P I m p
  cases hp : m.mutex.poisoned <;>
    simp [DeadlockProofMutex.lock, DeadlockProofMutex.lock_for_nested,
      StdMutex.rawLock, hp, Except.map]

/-- C6.  Releasing a guard acquired with a token of type `P` on a mutex of
identity `I` through `unlock_for_sequential` yields a
`SequentialMutexPermission P I` token; the concrete chain shows it acquiring
the mutex declared to require exactly that type; and in the protocol
semantics a `lock` of any mutex consumes exactly one token of the type that
mutex declares — so a mutex whose required-token type differs never accepts
the token. -/
theorem sequential_chaining :
    seqChainDemo = some 2 ∧
    (∀ (H : Hierarchy) (c c' : ThreadConfig) (m : MutexId),
      Step H c (ApiCall.lock m) c' →
        (H m).req ∈ c.free ∧
        c'.held = { mutex := m, isNested := false, permTy := (H m).req } :: c.held ∧
        c'.free = c.free.erase (H m).req) := by
  refine ⟨rfl, ?_⟩
  intro H c c' m h
  cases h with
  | lock hmem hheld hfree => exact ⟨hmem, hheld, hfree⟩

/-- C7.  `lock_for_nested` behaves exactly like `lock` on the underlying
mutex — it succeeds or fails on the same states, with the same poison
error — and on success it returns the guard over the same protected value and
stored permission, paired with a freshly minted `NestedMutexPermission P I`
token. -/
theorem lock_for_nested_like_lock_plus_token :
    ∀ {T P I : Type} (m : DeadlockProofMutex T P I) (p : P),
      m.lock_for_nested p =
        (m.lock p).map fun g => (⟨g.guard, g.perm⟩, ⟨⟩) := by
  intro T P I m p
  cases hr : m.mutex.rawLock <;>
    simp [DeadlockProofMutex.lock, DeadlockProofMutex.lock_for_nested, hr,
      Except.map]

/-- C8.  The exclusive end-to-end scenario: two independent integer mutexes
created at 0; a worker thread sets the first to 42 through its guard, releases
it, sets the second to 84; the main thread then acquires each in turn and
reads 42 and 84 — writes through a guard persist in the mutex and are seen by
the next acquirer. -/
theorem demo_exclusive_values : demo_exclusive_mutexes = some (42, 84) := rfl

/-- C9.  For a guard produced by `lock(t)`, the composition
`unlock_for_sequential` then `to_earlier` returns exactly the original token
`t`: the sequential permission wraps the permission it was built from and
gives it back. -/
theorem sequential_to_earlier_roundtrip :
    ∀ {T P I : Type} (m : DeadlockProofMutex T P I) (t : P)
      (g : DeadlockProofMutexGuard T P I),
      m.lock t = Except.ok g →
        (g.unlock_for_sequential).to_earlier = t := by
  intro T P I m t g h
  cases hp : m.mutex.poisoned
  · simp only [DeadlockProofMutex.lock, StdMutex.rawLock, hp] at h
    cases h
    rfl
  · simp only [DeadlockProofMutex.lock, StdMutex.rawLock, hp] at h
    cases h

/-- C9 witness: the composition on the concrete witness mutex. -/
theorem sequential_to_earlier_roundtrip_witness :
    (witnessGuard.unlock_for_sequential).to_earlier = OuterMutexPermission.mk :=
  sequential_to_earlier_roundtrip witnessMutex OuterMutexPermission.mk
    witnessGuard rfl

/-- C10.  When `lock` fails with a poison error, the error value is fully
determined by the mutex alone — it is the raw poison error around the raw
guard, with no permission inside — so the token consumed by the call is gone:
any token of the required type produces the very same error from `lock` and
from `lock_for_nested`, and nothing of the lost token can be recovered from
the result. -/
theorem poison_error_contains_no_token :
    ∀ {T P I : Type} (m : DeadlockProofMutex T P I) (p : P) (e : PoisonError T),
      m.lock p = Except.error e →
        e = ⟨⟨m.mutex.value⟩⟩ ∧
        ∀ q : P, m.lock q = Except.error e ∧
          m.lock_for_nested q = Except.error e := by
  intro T P I m p e h
  cases hp : m.mutex.poisoned
  · simp only [DeadlockProofMutex.lock, StdMutex.rawLock, hp, if_false,
      Except.map] at h
    cases h
  · simp only [DeadlockProofMutex.lock, StdMutex.rawLock, hp, if_true,
      Except.map, Except.error.injEq] at h
    subst h
    refine ⟨rfl, fun q => ⟨?_, ?_⟩⟩ <;>
      simp only [DeadlockProofMutex.lock, DeadlockProofMutex.lock_for_nested,
        StdMutex.rawLock, hp, if_true, Except.map]

/-- C10 witness: on the concrete poisoned mutex the error is the raw poison
error and is the same for every further token. -/
theorem poison_error_contains_no_token_witness :
    (⟨⟨3⟩⟩ : PoisonError Int) = ⟨⟨poisonedMutex.mutex.value⟩⟩ ∧
    ∀ q : OuterMutexPermission,
      poisonedMutex.lock q = Except.error ⟨⟨3⟩⟩ ∧
      poisonedMutex.lock_for_nested q = Except.error ⟨⟨3⟩⟩ :=
  poison_error_contains_no_token poisonedMutex OuterMutexPermission.mk
    ⟨⟨3⟩⟩ rfl
